import Mathlib

/-!
Shallow embedding of the json-schema-diff crate (src/types.rs, src/diff_walker.rs,
src/lib.rs) and proofs about its specification claims.

Modelling conventions:
* Rust `f64` numeric facet values are modelled as `ℚ` (they hold finite JSON numbers;
  only equality and ordering are used by the code).
* `BTreeMap`/`BTreeSet` fields are modelled as association lists / lists holding the
  map's ascending entry sequence; set difference and intersection iterate in the
  stored (ascending) order, exactly as `BTreeSet` iteration does.
* schemars accessors such as `SchemaObject::object()` (`get_or_insert_with(Default)`)
  are modelled as pure reads returning the stored value or the default value: no code
  path of the embedded functions distinguishes an absent group from a present default
  group afterwards.
* Rust `==`/`!=` (derived `PartialEq`) is modelled by the structural `beq` functions
  below.
* The recursive walker is modelled with explicit fuel (`Option` result, `none` = fuel
  exhausted); the Rust code recurses unboundedly and assumes acyclic `$ref` graphs.
-/

/-- All primitive types defined in JSON schema, in the declaration order of
`JsonSchemaType` in src/types.rs (this order is the derived `Ord`). -/
inductive JsonSchemaType where
  | String
  | Number
  | Integer
  | Object
  | Array
  | Boolean
  | Null
  deriving DecidableEq, Fintype

/-- Index of a `JsonSchemaType` in its declaration order; the derived Rust `Ord`
compares constructors by this index. -/
def jstIdx : JsonSchemaType → ℕ
  | .String => 0
  | .Number => 1
  | .Integer => 2
  | .Object => 3
  | .Array => 4
  | .Boolean => 5
  | .Null => 6

/-- The derived `Ord` relation on `JsonSchemaType`. -/
def jstLe (a b : JsonSchemaType) : Prop := jstIdx a ≤ jstIdx b

instance : DecidableRel jstLe := fun _ _ => Nat.decLe _ _

instance : IsTotal JsonSchemaType jstLe := ⟨by decide⟩

instance : IsTrans JsonSchemaType jstLe := ⟨by decide⟩

instance : IsAntisymm JsonSchemaType jstLe := ⟨by decide⟩

/-- Embeds `schemars::schema::InstanceType` (declaration order of the schemars crate). -/
inductive InstanceType where
  | Null
  | Boolean
  | Object
  | Array
  | Number
  | String
  | Integer
  deriving DecidableEq, Fintype

/-- Embeds `impl From<JsonSchemaType> for InstanceType` from src/types.rs. -/
def instanceTypeOfJst : JsonSchemaType → InstanceType
  | .String => .String
  | .Number => .Number
  | .Integer => .Integer
  | .Object => .Object
  | .Array => .Array
  | .Boolean => .Boolean
  | .Null => .Null

/-- Embeds `impl From<InstanceType> for JsonSchemaType` from src/types.rs. -/
def jstOfInstanceType : InstanceType → JsonSchemaType
  | .String => .String
  | .Number => .Number
  | .Integer => .Integer
  | .Object => .Object
  | .Array => .Array
  | .Boolean => .Boolean
  | .Null => .Null

/-- Embeds `serde_json::Value`. Numbers are modelled as `ℚ`, objects as their ascending
association list (`serde_json`'s default map is a `BTreeMap`). -/
inductive JsonValue where
  | null
  | bool (b : Bool)
  | num (q : ℚ)
  | str (s : String)
  | arr (l : List JsonValue)
  | obj (m : List (String × JsonValue))

mutual
def JsonValue.beq : JsonValue → JsonValue → Bool
  | .null, .null => true
  | .bool a, .bool b => a == b
  | .num a, .num b => a == b
  | .str a, .str b => a == b
  | .arr a, .arr b => jsonListBeq a b
  | .obj a, .obj b => jsonMapBeq a b
  | _, _ => false

def jsonListBeq : List JsonValue → List JsonValue → Bool
  | [], [] => true
  | a :: as, b :: bs => a.beq b && jsonListBeq as bs
  | _, _ => false

def jsonMapBeq : List (String × JsonValue) → List (String × JsonValue) → Bool
  | [], [] => true
  | (k, v) :: as, (k', v') :: bs => k == k' && v.beq v' && jsonMapBeq as bs
  | _, _ => false
end

/-- Embeds `Value::is_object`. -/
def JsonValue.is_object : JsonValue → Bool
  | .obj _ => true
  | _ => false

/-- Embeds `fn serde_value_to_own(val: &Value) -> JsonSchemaType` from src/diff_walker.rs. -/
def serde_value_to_own : JsonValue → JsonSchemaType
  | .num _ => .Number
  | .null => .Null
  | .str _ => .String
  | .bool _ => .Boolean
  | .arr _ => .Array
  | .obj _ => .Object

/-- Embeds `schemars::schema::NumberValidation` (`f64` fields as `ℚ`). -/
structure NumberValidation where
  multiple_of : Option ℚ := none
  maximum : Option ℚ := none
  exclusiveMaximum : Option ℚ := none
  minimum : Option ℚ := none
  exclusiveMinimum : Option ℚ := none
  deriving DecidableEq

/-- Embeds `schemars::schema::StringValidation`. -/
structure StringValidation where
  max_length : Option ℕ := none
  min_length : Option ℕ := none
  pattern : Option String := none
  deriving DecidableEq

/-- Embeds `schemars::schema::SingleOrVec`. -/
inductive SingleOrVec (α : Type) where
  | single (x : α)
  | vec (l : List α)
  deriving DecidableEq

mutual
/-- Embeds `schemars::schema::Schema`: either a boolean schema or a schema object. -/
inductive Schema where
  | bool (b : Bool)
  | obj (o : SchemaObject)

/-- Embeds `schemars::schema::SchemaObject`, restricted to the attributes the diff engine
reads: instance_type, const_value, subschemas, number, string, object, array,
reference. -/
inductive SchemaObject where
  | mk (instance_type : Option (SingleOrVec InstanceType))
       (const_value : Option JsonValue)
       (subschemas : Option SubschemaValidation)
       (number : Option NumberValidation)
       (string : Option StringValidation)
       (object : Option ObjectValidation)
       (array : Option ArrayValidation)
       (reference : Option String)

/-- Embeds `schemars::schema::SubschemaValidation`, restricted to `any_of` and `not`. -/
inductive SubschemaValidation where
  | mk (any_of : Option (List Schema)) (not : Option Schema)

/-- Embeds `schemars::schema::ObjectValidation`, restricted to the read fields. `required`
models the `BTreeSet<String>` as its ascending element list; `properties` and
`pattern_properties` model `BTreeMap`s as ascending association lists. -/
inductive ObjectValidation where
  | mk (required : List String)
       (properties : List (String × Schema))
       (pattern_properties : List (String × Schema))
       (additional_properties : Option Schema)

/-- Embeds `schemars::schema::ArrayValidation`, restricted to `items`. -/
inductive ArrayValidation where
  | mk (items : Option (SingleOrVec Schema))
end

def SchemaObject.instance_type : SchemaObject → Option (SingleOrVec InstanceType)
  | .mk it _ _ _ _ _ _ _ => it

def SchemaObject.const_value : SchemaObject → Option JsonValue
  | .mk _ cv _ _ _ _ _ _ => cv

def SchemaObject.subschemas : SchemaObject → Option SubschemaValidation
  | .mk _ _ ss _ _ _ _ _ => ss

def SchemaObject.number : SchemaObject → Option NumberValidation
  | .mk _ _ _ n _ _ _ _ => n

def SchemaObject.string : SchemaObject → Option StringValidation
  | .mk _ _ _ _ s _ _ _ => s

def SchemaObject.object : SchemaObject → Option ObjectValidation
  | .mk _ _ _ _ _ o _ _ => o

def SchemaObject.array : SchemaObject → Option ArrayValidation
  | .mk _ _ _ _ _ _ a _ => a

def SchemaObject.reference : SchemaObject → Option String
  | .mk _ _ _ _ _ _ _ r => r

def SubschemaValidation.any_of : SubschemaValidation → Option (List Schema)
  | .mk a _ => a

def SubschemaValidation.not : SubschemaValidation → Option Schema
  | .mk _ n => n

def ObjectValidation.required : ObjectValidation → List String
  | .mk r _ _ _ => r

def ObjectValidation.properties : ObjectValidation → List (String × Schema)
  | .mk _ p _ _ => p

def ObjectValidation.pattern_properties : ObjectValidation → List (String × Schema)
  | .mk _ _ pp _ => pp

def ObjectValidation.additional_properties : ObjectValidation → Option Schema
  | .mk _ _ _ ap => ap

def ArrayValidation.items : ArrayValidation → Option (SingleOrVec Schema)
  | .mk i => i

/-- Embeds `SchemaObject::default()`: every field absent. -/
def defaultSchemaObject : SchemaObject := .mk none none none none none none none none

/-- Embeds `SubschemaValidation::default()`. -/
def defaultSubschemaValidation : SubschemaValidation := .mk none none

/-- Embeds `ObjectValidation::default()`. -/
def defaultObjectValidation : ObjectValidation := .mk [] [] [] none

/-- Embeds `ArrayValidation::default()`. -/
def defaultArrayValidation : ArrayValidation := .mk none

/-- Read side of the schemars accessor `SchemaObject::subschemas()`. -/
def SchemaObject.subschemasV (s : SchemaObject) : SubschemaValidation :=
  s.subschemas.getD defaultSubschemaValidation

/-- Read side of the schemars accessor `SchemaObject::number()`. -/
def SchemaObject.numberV (s : SchemaObject) : NumberValidation :=
  s.number.getD {}

/-- Read side of the schemars accessor `SchemaObject::string()`. -/
def SchemaObject.stringV (s : SchemaObject) : StringValidation :=
  s.string.getD {}

/-- Read side of the schemars accessor `SchemaObject::object()`. -/
def SchemaObject.objectV (s : SchemaObject) : ObjectValidation :=
  s.object.getD defaultObjectValidation

/-- Read side of the schemars accessor `SchemaObject::array()`. -/
def SchemaObject.arrayV (s : SchemaObject) : ArrayValidation :=
  s.array.getD defaultArrayValidation

/-- Embeds `Schema::into_object` from schemars: `Bool(true)` becomes the default (empty)
object, `Bool(false)` becomes `{ "not": {} }`. -/
def Schema.into_object : Schema → SchemaObject
  | .obj o => o
  | .bool true => defaultSchemaObject
  | .bool false =>
    .mk none none (some (.mk none (some (.obj defaultSchemaObject)))) none none none none none

/-- Structural equality on `Option JsonValue` (derived `PartialEq`). -/
def optJsonValueBeq : Option JsonValue → Option JsonValue → Bool
  | none, none => true
  | some v, some v' => v.beq v'
  | _, _ => false

mutual
def Schema.beq : Schema → Schema → Bool
  | .bool a, .bool b => a == b
  | .obj a, .obj b => SchemaObject.beq a b
  | _, _ => false

def SchemaObject.beq : SchemaObject → SchemaObject → Bool
  | .mk it cv ss n st o a r, .mk it' cv' ss' n' st' o' a' r' =>
    it == it' && optJsonValueBeq cv cv' && optSubschemaBeq ss ss' &&
    n == n' && st == st' && optObjectValidationBeq o o' &&
    optArrayValidationBeq a a' && r == r'

def SubschemaValidation.beq : SubschemaValidation → SubschemaValidation → Bool
  | .mk ao nt, .mk ao' nt' => optSchemaListBeq ao ao' && optSchemaBeq nt nt'

def ObjectValidation.beq : ObjectValidation → ObjectValidation → Bool
  | .mk req props pp ap, .mk req' props' pp' ap' =>
    req == req' && schemaMapBeq props props' && schemaMapBeq pp pp' &&
    optSchemaBeq ap ap'

def ArrayValidation.beq : ArrayValidation → ArrayValidation → Bool
  | .mk i, .mk i' => optSovSchemaBeq i i'

def optSubschemaBeq : Option SubschemaValidation → Option SubschemaValidation → Bool
  | none, none => true
  | some x, some x' => SubschemaValidation.beq x x'
  | _, _ => false

def optObjectValidationBeq : Option ObjectValidation → Option ObjectValidation → Bool
  | none, none => true
  | some x, some x' => ObjectValidation.beq x x'
  | _, _ => false

def optArrayValidationBeq : Option ArrayValidation → Option ArrayValidation → Bool
  | none, none => true
  | some x, some x' => ArrayValidation.beq x x'
  | _, _ => false

def optSchemaBeq : Option Schema → Option Schema → Bool
  | none, none => true
  | some s, some s' => Schema.beq s s'
  | _, _ => false

def optSchemaListBeq : Option (List Schema) → Option (List Schema) → Bool
  | none, none => true
  | some l, some l' => schemaListBeq l l'
  | _, _ => false

def optSovSchemaBeq : Option (SingleOrVec Schema) → Option (SingleOrVec Schema) → Bool
  | none, none => true
  | some (.single s), some (.single s') => Schema.beq s s'
  | some (.vec l), some (.vec l') => schemaListBeq l l'
  | _, _ => false

def schemaListBeq : List Schema → List Schema → Bool
  | [], [] => true
  | a :: as, b :: bs => Schema.beq a b && schemaListBeq as bs
  | _, _ => false

def schemaMapBeq : List (String × Schema) → List (String × Schema) → Bool
  | [], [] => true
  | (k, v) :: as, (k', v') :: bs => k == k' && Schema.beq v v' && schemaMapBeq as bs
  | _, _ => false
end

/-- Embeds `JsonSchemaExt::is_true` from src/diff_walker.rs: `*self == SchemaObject::default()`. -/
def SchemaObject.is_true (s : SchemaObject) : Bool :=
  SchemaObject.beq s defaultSchemaObject

/-- Embeds `RootSchema`: the root schema object plus its definitions map (ascending
association list; schemars parses both `definitions` and `$defs` JSON keys into
this one map via a serde alias). -/
structure RootSchema where
  schema : SchemaObject
  definitions : List (String × Schema)

/-- Embeds `Range` from src/types.rs (the released change model: each bound carries its
`f64` value, modelled as `ℚ`). -/
inductive Range where
  | Minimum (q : ℚ)
  | Maximum (q : ℚ)
  | ExclusiveMinimum (q : ℚ)
  | ExclusiveMaximum (q : ℚ)
  deriving DecidableEq

/-- Embeds `ChangeKind` from src/types.rs, constructor and field order as in the source. -/
inductive ChangeKind where
  | TypeAdd (added : JsonSchemaType)
  | TypeRemove (removed : JsonSchemaType)
  | ConstAdd (added : JsonValue)
  | ConstRemove (removed : JsonValue)
  | PropertyAdd (lhs_additional_properties : Bool) (added : String)
  | PropertyRemove (lhs_additional_properties : Bool) (removed : String)
  | RangeAdd (added : Range)
  | RangeRemove (removed : Range)
  | RangeChange (old_value : Range) (new_value : Range)
  | TupleToArray (old_length : ℕ)
  | ArrayToTuple (new_length : ℕ)
  | TupleChange (new_length : ℕ)
  | RequiredRemove (property : String)
  | RequiredAdd (property : String)
  | FormatAdd (added : String)
  | FormatRemove (removed : String)
  | FormatChange (old_format : String) (new_format : String)
  | PatternAdd (added : String)
  | PatternRemove (removed : String)
  | PatternChange (old_pattern : String) (new_pattern : String)
  | MinLengthAdd (added : ℕ)
  | MinLengthRemove (removed : ℕ)
  | MinLengthChange (old_value : ℕ) (new_value : ℕ)
  | MaxLengthAdd (added : ℕ)
  | MaxLengthRemove (removed : ℕ)
  | MaxLengthChange (old_value : ℕ) (new_value : ℕ)

/-- Embeds `Change` from src/types.rs. -/
structure Change where
  path : String
  change : ChangeKind

/-- Embeds `ChangeKind::is_breaking` from src/types.rs (lines 188-244). The `RangeChange`
arm reproduces the source's guarded match arms in order; a failed guard falls
through to the final catch-all `true`. -/
def ChangeKind.is_breaking : ChangeKind → Bool
  | .TypeAdd _ => false
  | .TypeRemove _ => true
  | .ConstAdd _ => true
  | .ConstRemove _ => false
  | .PropertyAdd lhs_additional_properties _ => lhs_additional_properties
  | .PropertyRemove lhs_additional_properties _ => !lhs_additional_properties
  | .RangeAdd _ => true
  | .RangeRemove _ => false
  | .RangeChange old_value new_value =>
    match old_value, new_value with
    | .ExclusiveMinimum exc, .Minimum minv => if exc ≥ minv then false else true
    | .ExclusiveMaximum exc, .Maximum maxv => if exc ≤ maxv then false else true
    | .Minimum l, .Minimum r => if l ≥ r then false else true
    | .ExclusiveMinimum l, .ExclusiveMinimum r => if l ≥ r then false else true
    | .Maximum l, .Maximum r => if l ≤ r then false else true
    | .ExclusiveMaximum l, .ExclusiveMaximum r => if l ≤ r then false else true
    | _, _ => true
  | .TupleToArray _ => false
  | .ArrayToTuple _ => true
  | .TupleChange _ => true
  | .RequiredRemove _ => false
  | .RequiredAdd _ => true
  | .FormatAdd _ => true
  | .FormatRemove _ => false
  | .FormatChange _ _ => true
  | .PatternAdd _ => true
  | .PatternRemove _ => false
  | .PatternChange _ _ => true
  | .MinLengthAdd _ => true
  | .MinLengthRemove _ => false
  | .MinLengthChange old_value new_value => decide (new_value > old_value)
  | .MaxLengthAdd _ => true
  | .MaxLengthRemove _ => false
  | .MaxLengthChange old_value new_value => decide (new_value < old_value)

/-- Embeds `InternalJsonSchemaType` from src/diff_walker.rs. -/
inductive InternalJsonSchemaType where
  | Simple (t : JsonSchemaType)
  | Any
  | Never
  | Multiple (l : List JsonSchemaType)
  deriving DecidableEq

/-- The seven primitive kinds in the fixed order `explode` lists them for `Any`:
String, Number, Integer, Object, Array, Boolean, Null. -/
def sevenKinds : List JsonSchemaType :=
  [.String, .Number, .Integer, .Object, .Array, .Boolean, .Null]

/-- Value of `InternalJsonSchemaType::explode` on `Simple(x)`: `Number` expands to
`[Integer, Number]`, every other kind to its singleton. -/
def explodeSimple : JsonSchemaType → List JsonSchemaType
  | .Number => [.Integer, .Number]
  | x => [x]

/-- Embeds `InternalJsonSchemaType::explode` from src/diff_walker.rs (lines 656-678).
`Multiple` flat-maps each member through `Simple`'s explode, i.e. `explodeSimple`. -/
def InternalJsonSchemaType.explode : InternalJsonSchemaType → List JsonSchemaType
  | .Simple x => explodeSimple x
  | .Any => sevenKinds
  | .Never => []
  | .Multiple xs => xs.flatMap explodeSimple

/-- Embeds `InternalJsonSchemaType::into_set`: collecting `explode` into a `BTreeSet`,
modelled as the ascending duplicate-free list. -/
def InternalJsonSchemaType.into_set (t : InternalJsonSchemaType) : List JsonSchemaType :=
  (t.explode.insertionSort jstLe).dedup

/-- Value of `effective_type` on `Schema::Bool(b).into_object()`: the empty object
is `Any`, the `{ "not": {} }` object is `Never` (proved as
`effective_type_into_object_bool` below). -/
def boolSchemaEffectiveType (b : Bool) : InternalJsonSchemaType :=
  if b then .Any else .Never

mutual
/-- Embeds `JsonSchemaExt::effective_type` from src/diff_walker.rs (lines 588-619):
instance_type, then const, then non-empty properties, then anyOf union (collected
through a `BTreeSet`, hence sorted and deduplicated), then `not: true` ⇒ Never,
else Any. -/
def SchemaObject.effective_type : SchemaObject → InternalJsonSchemaType
  | .mk it cv ss _n _st o _a _r =>
    match it with
    | some (.single ty) => .Simple (jstOfInstanceType ty)
    | some (.vec tys) => .Multiple (tys.map jstOfInstanceType)
    | none =>
      match cv with
      | some constant => .Simple (serde_value_to_own constant)
      | none =>
        if ((match o with
             | some ov => ov.properties
             | none => []).isEmpty) = false then
          .Simple .Object
        else
          match ss with
          | some (.mk (some any_of) _) =>
            .Multiple (((anyOfTypes any_of).insertionSort jstLe).dedup)
          | some (.mk none (some nt)) =>
            if nt.into_object.is_true then .Never else .Any
          | _ => .Any

/-- The `flat_map` over `any_of` in `effective_type`: each branch contributes
`effective_type(branch.into_object()).explode()`. -/
def anyOfTypes : List Schema → List JsonSchemaType
  | [] => []
  | .obj o :: rest => (o.effective_type).explode ++ anyOfTypes rest
  | .bool b :: rest => (boolSchemaEffectiveType b).explode ++ anyOfTypes rest
end

/-- Embeds `JsonSchemaExt::number_validation` from src/diff_walker.rs (lines 621-634):
the node's own number facet, or — when that is entirely default — the number facet
of the sole `anyOf` branch, if there is exactly one. -/
def SchemaObject.number_validation (s : SchemaObject) : NumberValidation :=
  let nv := s.numberV
  if nv = ({} : NumberValidation) then
    match s.subschemasV.any_of with
    | some schemas =>
      if schemas.length = 1 then ((schemas.getD 0 (.bool true)).into_object).numberV
      else {}
    | none => {}
  else nv

/-- Embeds `DiffScore for NumberValidation` (src/diff_walker.rs lines 41-55). -/
def NumberValidation.diff_score (a b : NumberValidation) : ℕ :=
  (if a.multiple_of = b.multiple_of then 0 else 1) +
  (if a.minimum = b.minimum then 0 else 1) +
  (if a.maximum = b.maximum then 0 else 1)

/-- Embeds `DiffScore for StringValidation` (src/diff_walker.rs lines 57-71). -/
def StringValidation.diff_score (a b : StringValidation) : ℕ :=
  (if a.pattern = b.pattern then 0 else 1) +
  (if a.min_length = b.min_length then 0 else 1) +
  (if a.max_length = b.max_length then 0 else 1)

/-- Embeds `DiffScore for ObjectValidation` (src/diff_walker.rs lines 73-90). -/
def ObjectValidation.diff_score (a b : ObjectValidation) : ℕ :=
  (if a.required = b.required then 0 else 1) +
  (if schemaMapBeq a.properties b.properties then 0 else 1) +
  (if schemaMapBeq a.pattern_properties b.pattern_properties then 0 else 1) +
  (if optSchemaBeq a.additional_properties b.additional_properties then 0 else 1)

/-- Embeds `DiffScore for SchemaObject` (src/diff_walker.rs lines 28-39): 10 when the
effective types differ, plus the number, string and object facet scores. -/
def SchemaObject.diff_score (lhs rhs : SchemaObject) : ℕ :=
  (if lhs.effective_type = rhs.effective_type then 0 else 10) +
  (lhs.numberV.diff_score rhs.numberV +
   lhs.stringV.diff_score rhs.stringV +
   lhs.objectV.diff_score rhs.objectV)

/-- Embeds `DiffScore for Schema` (src/diff_walker.rs lines 21-27). -/
def Schema.diff_score (a b : Schema) : ℕ :=
  a.into_object.diff_score b.into_object

/-- Lexicographic order on char lists by code point; models Rust's `Ord` on
`String` (byte-lexicographic; identical on the ASCII keys that occur here). -/
def lexLe : List Char → List Char → Bool
  | [], _ => true
  | _ :: _, [] => false
  | a :: as, b :: bs => if a = b then lexLe as bs else Nat.blt a.toNat b.toNat

/-- String comparison used for `BTreeSet<String>`/`BTreeMap<String, _>` ordering. -/
def strLe (a b : String) : Bool := lexLe a.data b.data

def insertSortedStr (a : String) : List String → List String
  | [] => [a]
  | b :: l => if strLe a b then a :: b :: l else b :: insertSortedStr a l

/-- Ascending sort of a string list (insertion sort under `strLe`). -/
def sortStrings (l : List String) : List String := l.foldr insertSortedStr []

/-- Embeds `keys().cloned().collect::<BTreeSet<_>>()` over a properties map: the ascending
duplicate-free key list. -/
def btreeSetOfKeys (props : List (String × Schema)) : List String :=
  (sortStrings (props.map Prod.fst)).dedup

/-- Embeds `BTreeMap::get`. -/
def mapGet (m : List (String × Schema)) (k : String) : Option Schema :=
  match m with
  | [] => none
  | (k', v) :: rest => if k' = k then some v else mapGet rest k

/-- Embeds `DiffWalker::resolve_ref` from src/diff_walker.rs (lines 436-443): only the
`#/definitions/` prefix is recognised (`"#/definitions/".length = 14`); the
remainder is looked up in the root's definitions map. -/
def resolve_ref (root_schema : RootSchema) (reference : String) : Option Schema :=
  if reference.take 14 = "#/definitions/" then
    mapGet root_schema.definitions (reference.drop 14)
  else none

/-- Embeds `DiffWalker::resolve_references` from src/diff_walker.rs (lines 445-463): each
side with a `$ref` is replaced by the resolved definition from its own root when
resolvable, and left unchanged otherwise. -/
def resolve_references (lhs_root rhs_root : RootSchema) (lhs rhs : SchemaObject) :
    SchemaObject × SchemaObject :=
  let lhs' :=
    match lhs.reference with
    | some reference =>
      match resolve_ref lhs_root reference with
      | some lhs_inner => lhs_inner.into_object
      | none => lhs
    | none => lhs
  let rhs' :=
    match rhs.reference with
    | some reference =>
      match resolve_ref rhs_root reference with
      | some rhs_inner => rhs_inner.into_object
      | none => rhs
    | none => rhs
  (lhs', rhs')

/-- Embeds `DiffWalker::restrictions_for_single_type` from src/diff_walker.rs
(lines 465-480): a fresh single-type node keeping only the facet group relevant to
the type. -/
def restrictions_for_single_type (schema_object : SchemaObject) (ty : InstanceType) :
    Schema :=
  Schema.obj (.mk
    (some (.single ty))
    none
    none
    (match ty with
     | .Number | .Integer => schema_object.number
     | _ => none)
    (match ty with
     | .String => schema_object.string
     | _ => none)
    (match ty with
     | .Object => schema_object.object
     | _ => none)
    (match ty with
     | .Array => schema_object.array
     | _ => none)
    none)

/-- Embeds `DiffWalker::split_types` from src/diff_walker.rs (lines 482-508): a node with
a `Multiple` effective type and no `anyOf` is replaced by a bare `anyOf` of its
single-type projections; returns the (possibly rewritten) node and whether it was
split. -/
def split_types (schema_object : SchemaObject) : SchemaObject × Bool :=
  match schema_object.effective_type with
  | .Multiple types =>
    if (schema_object.subschemasV.any_of).isNone then
      (SchemaObject.mk none none
        (some (.mk
          (some (types.map (fun ty =>
            restrictions_for_single_type schema_object (instanceTypeOfJst ty))))
          none))
        none none none none none,
       true)
    else (schema_object, false)
  | _ => (schema_object, false)

mutual
/-- Embeds `do_normalize` inside `DiffWalker::normalize_const` (src/diff_walker.rs lines
511-531): an object constant becomes a node whose only content is a `properties`
map of recursively normalized entries; any other constant becomes a node whose only
content is that `const`. -/
def do_normalize : JsonValue → SchemaObject
  | .obj obj =>
    SchemaObject.mk none none none none none
      (some (.mk [] (normalize_entries obj) [] none)) none none
  | value => SchemaObject.mk none (some value) none none none none none none

def normalize_entries : List (String × JsonValue) → List (String × Schema)
  | [] => []
  | (k, v) :: rest => (k, Schema.obj (do_normalize v)) :: normalize_entries rest
end

/-- Embeds `DiffWalker::normalize_const` from src/diff_walker.rs (lines 510-535): when a
`const` is present the whole node is replaced by `do_normalize` of the constant
(the `take()` removes the const and the assignment discards every other field);
without a `const` the node is untouched. -/
def normalize_const (schema_object : SchemaObject) : SchemaObject :=
  match schema_object.const_value with
  | some value => do_normalize value
  | none => schema_object

/-- Embeds `DiffWalker::diff_instance_types` from src/diff_walker.rs (lines 144-170):
`TypeRemove` for the ascending iteration of `lhs_ty - rhs_ty`, then `TypeAdd` for
`rhs_ty - lhs_ty`. -/
def diff_instance_types (json_path : String) (lhs rhs : SchemaObject) : List Change :=
  let lhs_ty := lhs.effective_type.into_set
  let rhs_ty := rhs.effective_type.into_set
  (lhs_ty.filter (fun k => !(rhs_ty.contains k))).map
    (fun removed => Change.mk json_path (.TypeRemove removed)) ++
  (rhs_ty.filter (fun k => !(lhs_ty.contains k))).map
    (fun added => Change.mk json_path (.TypeAdd added))

/-- Embeds `DiffWalker::diff_const` from src/diff_walker.rs (lines 172-201): both sides
are const-normalized in place (returned here), then add/remove records are emitted
by presence and inequality. -/
def diff_const (json_path : String) (lhs rhs : SchemaObject) :
    List Change × SchemaObject × SchemaObject :=
  let lhs := normalize_const lhs
  let rhs := normalize_const rhs
  let changes :=
    match lhs.const_value, rhs.const_value with
    | some value, none => [Change.mk json_path (.ConstRemove value)]
    | none, some value => [Change.mk json_path (.ConstAdd value)]
    | some l, some r =>
      if l.beq r then []
      else [Change.mk json_path (.ConstRemove l), Change.mk json_path (.ConstAdd r)]
    | none, none => []
  (changes, lhs, rhs)

def diff_properties_loop
    (recur : String → SchemaObject → SchemaObject → Option (List Change))
    (json_path : String) (lhsProps rhsProps : List (String × Schema)) :
    List String → Option (List Change)
  | [] => some []
  | common :: rest => do
    let lhs_child := (mapGet lhsProps common).getD (.bool true)
    let rhs_child := (mapGet rhsProps common).getD (.bool true)
    let c ← recur (json_path ++ "." ++ common) lhs_child.into_object rhs_child.into_object
    let cs ← diff_properties_loop recur json_path lhsProps rhsProps rest
    some (c ++ cs)

/-- Embeds `DiffWalker::diff_properties` from src/diff_walker.rs (lines 203-251):
`PropertyRemove` over `lhs_props - rhs_props`, `PropertyAdd` over
`rhs_props - lhs_props` (both carrying the LHS `additionalProperties` openness),
then recursion over the common keys at path `parent.<name>`. -/
def diff_properties
    (recur : String → SchemaObject → SchemaObject → Option (List Change))
    (json_path : String) (lhs rhs : SchemaObject) : Option (List Change) := do
  let lhs_props := btreeSetOfKeys lhs.objectV.properties
  let rhs_props := btreeSetOfKeys rhs.objectV.properties
  let lhs_additional_properties :=
    match lhs.objectV.additional_properties with
    | some x => x.into_object.is_true
    | none => true
  let removes := (lhs_props.filter (fun k => !(rhs_props.contains k))).map
    (fun removed => Change.mk json_path (.PropertyRemove lhs_additional_properties removed))
  let adds := (rhs_props.filter (fun k => !(lhs_props.contains k))).map
    (fun added => Change.mk json_path (.PropertyAdd lhs_additional_properties added))
  let commons := rhs_props.filter (fun k => lhs_props.contains k)
  let rec_changes ← diff_properties_loop recur json_path
    lhs.objectV.properties rhs.objectV.properties commons
  some (removes ++ adds ++ rec_changes)

/-- Embeds `DiffWalker::diff_additional_properties` from src/diff_walker.rs (lines
253-275): recursion at `.<additionalProperties>` only when both sides carry an
explicit `additionalProperties` and the two differ. -/
def diff_additional_properties
    (recur : String → SchemaObject → SchemaObject → Option (List Change))
    (json_path : String) (lhs rhs : SchemaObject) : Option (List Change) :=
  match lhs.objectV.additional_properties, rhs.objectV.additional_properties with
  | some lhs_additional_properties, some rhs_additional_properties =>
    if Schema.beq rhs_additional_properties lhs_additional_properties then some []
    else recur (json_path ++ ".<additionalProperties>")
      lhs_additional_properties.into_object rhs_additional_properties.into_object
  | _, _ => some []

/-- The `diff` closure inside `DiffWalker::diff_range` (src/diff_walker.rs lines
283-307). The walker's older change model passes the `Range` constructor and the
value separately; the change model of src/types.rs stores the value inside the
`Range`, so the constructor is applied to the value here. -/
def range_case (json_path : String) (range : ℚ → Range) :
    Option ℚ → Option ℚ → Option Change
  | none, some value => some (Change.mk json_path (.RangeAdd (range value)))
  | some value, none => some (Change.mk json_path (.RangeRemove (range value)))
  | some lhs, some rhs =>
    if lhs = rhs then none
    else some (Change.mk json_path (.RangeChange (range lhs) (range rhs)))
  | none, none => none

/-- Embeds `DiffWalker::diff_range` from src/diff_walker.rs (lines 277-323): the three-case
`diff` closure applied to the `minimum` pair and then to the `maximum` pair of the
two sides' `number_validation()`; no other bound is examined. -/
def diff_range (json_path : String) (lhs rhs : SchemaObject) : List Change :=
  (range_case json_path Range.Minimum
    lhs.number_validation.minimum rhs.number_validation.minimum).toList ++
  (range_case json_path Range.Maximum
    lhs.number_validation.maximum rhs.number_validation.maximum).toList

def diff_items_loop
    (recur : String → SchemaObject → SchemaObject → Option (List Change))
    (json_path : String) : ℕ → List (Schema × Schema) → Option (List Change)
  | _, [] => some []
  | i, (lhs_inner, rhs_inner) :: rest => do
    let c ← recur (json_path ++ "." ++ toString i) lhs_inner.into_object rhs_inner.into_object
    let cs ← diff_items_loop recur json_path (i + 1) rest
    some (c ++ cs)

/-- Embeds `DiffWalker::diff_array_items` from src/diff_walker.rs (lines 325-404). The
final wildcard arm models the released library's `#[cfg(not(test))] _ => ()`:
mixed presence/absence of `items` emits nothing and recurses nowhere. -/
def diff_array_items
    (recur : String → SchemaObject → SchemaObject → Option (List Change))
    (json_path : String) (lhs rhs : SchemaObject) : Option (List Change) :=
  match lhs.arrayV.items, rhs.arrayV.items with
  | some (.vec lhs_items), some (.vec rhs_items) => do
    let head :=
      if lhs_items.length ≠ rhs_items.length then
        [Change.mk json_path (.TupleChange rhs_items.length)]
      else []
    let cs ← diff_items_loop recur json_path 0 (lhs_items.zip rhs_items)
    some (head ++ cs)
  | some (.single lhs_inner), some (.single rhs_inner) =>
    recur (json_path ++ ".?") lhs_inner.into_object rhs_inner.into_object
  | some (.single lhs_inner), some (.vec rhs_items) => do
    let cs ← diff_items_loop recur json_path 0 (rhs_items.map (fun r => (lhs_inner, r)))
    some (Change.mk json_path (.ArrayToTuple rhs_items.length) :: cs)
  | some (.vec lhs_items), some (.single rhs_inner) => do
    let cs ← diff_items_loop recur json_path 0 (lhs_items.map (fun l => (l, rhs_inner)))
    some (Change.mk json_path (.TupleToArray lhs_items.length) :: cs)
  | none, none => some []
  | _, _ => some []

/-- Embeds `DiffWalker::diff_required` from src/diff_walker.rs (lines 406-434):
`RequiredRemove` over `lhs_required - rhs_required`, `RequiredAdd` over the
reverse difference, in the sets' ascending iteration order. -/
def diff_required (json_path : String) (lhs rhs : SchemaObject) : List Change :=
  let lhs_required := lhs.objectV.required
  let rhs_required := rhs.objectV.required
  (lhs_required.filter (fun k => !(rhs_required.contains k))).map
    (fun removed => Change.mk json_path (.RequiredRemove removed)) ++
  (rhs_required.filter (fun k => !(lhs_required.contains k))).map
    (fun added => Change.mk json_path (.RequiredAdd added))

/-- The padding step of `DiffWalker::diff_any_of` (src/diff_walker.rs lines
105-112): the shorter branch list is extended with `Schema::Bool(false)` branches
to the common length (ties pad the left side with zero elements). -/
def pad_any_of (lhs_any_of rhs_any_of : List Schema) : List Schema × List Schema :=
  let l := lhs_any_of.length
  let r := rhs_any_of.length
  if l ≤ r then
    (lhs_any_of ++ List.replicate (r - l) (Schema.bool false), rhs_any_of)
  else
    (lhs_any_of, rhs_any_of ++ List.replicate (l - r) (Schema.bool false))

/-- The row-major score matrix of `DiffWalker::diff_any_of` (src/diff_walker.rs
lines 114-120): entry `(i, j)` is `lhs[i].diff_score(rhs[j])`. -/
def build_score_matrix (lhs_any_of rhs_any_of : List Schema) : List ℕ :=
  lhs_any_of.flatMap (fun l => rhs_any_of.map (fun r => l.diff_score r))

/-- Total cost of assignment `σ` (pairing row `i` with column `σ(i)`) over a
row-major `n × n` matrix. -/
def assignment_cost (mat : List ℕ) (n : ℕ) (σ : List ℕ) : ℕ :=
  ((List.range n).zip σ).foldl (fun acc ij => acc + mat.getD (ij.1 * n + ij.2) 0) 0

def pickMin (f : List ℕ → ℕ) : List (List ℕ) → List ℕ → List ℕ
  | [], best => best
  | c :: rest, best => pickMin f rest (if f c < f best then c else best)

/-- Modelled from the spec: the external `hungarian::minimize` collaborator (the
`hungarian` crate, not part of this repository). Spec §4.5 requires a
minimum-total-cost assignment and fixes no tie-break; this model returns the first
minimiser in an enumeration of all permutations of `0..n` that begins with the
identity. -/
def hungarian_minimize (mat : List ℕ) (n : ℕ) : List ℕ :=
  pickMin (assignment_cost mat n) (List.range n).permutations.tail (List.range n)

/-- Replace a node's `anyOf` list, keeping everything else (the in-place padding
mutation of `diff_any_of`). -/
def SchemaObject.set_any_of (s : SchemaObject) (l : List Schema) : SchemaObject :=
  match s with
  | .mk it cv ss n st o a r =>
    .mk it cv
      (some (.mk (some l) (match ss with
        | some x => x.not
        | none => none)))
      n st o a r

/-- The recursion loop of `DiffWalker::diff_any_of` (src/diff_walker.rs lines
127-138): for each assigned pair, recurse with `comparing_any_of = true` at
`parent.<anyOf:j>` (or at the parent path itself when the RHS was type-split). -/
def run_pairs
    (recurAny : String → SchemaObject → SchemaObject → Option (List Change))
    (json_path : String) (is_rhs_split : Bool) (lhs_any_of rhs_any_of : List Schema) :
    List (ℕ × ℕ) → Option (List Change)
  | [] => some []
  | (i, j) :: rest => do
    let new_path :=
      if is_rhs_split then json_path
      else json_path ++ ".<anyOf:" ++ toString j ++ ">"
    let c ← recurAny new_path
      ((lhs_any_of.getD i (.bool false)).into_object)
      ((rhs_any_of.getD j (.bool false)).into_object)
    let cs ← run_pairs recurAny json_path is_rhs_split lhs_any_of rhs_any_of rest
    some (c ++ cs)

/-- Embeds `DiffWalker::diff_any_of` from src/diff_walker.rs (lines 93-142): when both
sides carry `anyOf`, pad to common length, build the score matrix, take a
minimum-cost assignment and recurse on the assigned pairs; the padded lists are
written back into the nodes (the in-place mutation). -/
def diff_any_of
    (recurAny : String → SchemaObject → SchemaObject → Option (List Change))
    (json_path : String) (is_rhs_split : Bool) (lhs rhs : SchemaObject) :
    Option (List Change × SchemaObject × SchemaObject) :=
  match lhs.subschemasV.any_of, rhs.subschemasV.any_of with
  | some lhs_any_of, some rhs_any_of =>
    let padded := pad_any_of lhs_any_of rhs_any_of
    let lhs_any_of := padded.1
    let rhs_any_of := padded.2
    let mat := build_score_matrix lhs_any_of rhs_any_of
    let len := lhs_any_of.length
    let pairs := (List.range len).zip (hungarian_minimize mat len)
    match run_pairs recurAny json_path is_rhs_split lhs_any_of rhs_any_of pairs with
    | some cs => some (cs, lhs.set_any_of lhs_any_of, rhs.set_any_of rhs_any_of)
    | none => none
  | _, _ => some ([], lhs, rhs)

/-- Embeds `DiffWalker::do_diff` from src/diff_walker.rs (lines 537-563), with explicit
fuel for the unbounded Rust recursion (`none` = fuel exhausted): resolve refs,
split types, anyOf facet, type facet (unless inside an anyOf comparison), const
facet, then — only when neither side was split — the type-specific facets in
source order. -/
def do_diff (lhs_root rhs_root : RootSchema) :
    ℕ → String → Bool → SchemaObject → SchemaObject → Option (List Change)
  | 0, _, _, _, _ => none
  | fuel + 1, json_path, comparing_any_of, lhs, rhs => do
    let resolved := resolve_references lhs_root rhs_root lhs rhs
    let split_l := split_types resolved.1
    let split_r := split_types resolved.2
    let is_lhs_split := split_l.2
    let is_rhs_split := split_r.2
    let step ← diff_any_of (fun p a b => do_diff lhs_root rhs_root fuel p true a b)
      json_path is_rhs_split split_l.1 split_r.1
    let c1 := step.1
    let c2 := if comparing_any_of then [] else diff_instance_types json_path step.2.1 step.2.2
    let cstep := diff_const json_path step.2.1 step.2.2
    let c3 := cstep.1
    let lhs := cstep.2.1
    let rhs := cstep.2.2
    if !is_lhs_split && !is_rhs_split then do
      let recur := fun p a b => do_diff lhs_root rhs_root fuel p false a b
      let c4 ← diff_properties recur json_path lhs rhs
      let c5 := diff_range json_path lhs rhs
      let c6 ← diff_additional_properties recur json_path lhs rhs
      let c7 ← diff_array_items recur json_path lhs rhs
      let c8 := diff_required json_path lhs rhs
      some (c1 ++ c2 ++ c3 ++ c4 ++ c5 ++ c6 ++ c7 ++ c8)
    else
      some (c1 ++ c2 ++ c3)

/-- Embeds `DiffWalker::diff` (src/diff_walker.rs lines 565-572) as invoked by `diff` in
src/lib.rs: the walk starts at path `""` with `comparing_any_of = false` on the two
root schema objects. -/
def walk_diff (lhs_root rhs_root : RootSchema) (fuel : ℕ) : Option (List Change) :=
  do_diff lhs_root rhs_root fuel ("") false lhs_root.schema rhs_root.schema

/-- Embeds `Error` from src/types.rs (lines 248-256): the only variant wraps a serde
parse error. -/
inductive Error where
  | Serde (msg : String)

/-- Embeds `diff` from src/lib.rs (lines 16-33), with the external `serde_json::from_value`
deserialization abstracted as the two already-computed parse results; `?`
propagates a parse failure, and the walk itself constructs no `Error` anywhere. -/
def lib_diff (lhs rhs : Except Error RootSchema) (fuel : ℕ) :
    Except Error (Option (List Change)) := do
  let lhs_root ← lhs
  let rhs_root ← rhs
  pure (walk_diff lhs_root rhs_root fuel)

def exceptIsOk {ε α : Type} : Except ε α → Bool
  | .ok _ => true
  | .error _ => false

/-- Claim C1's reading of "the new bound is at least as permissive": within the
lower-bound family (`Minimum`/`ExclusiveMinimum`) the value is non-increasing;
within the upper-bound family (`Maximum`/`ExclusiveMaximum`) it is non-decreasing;
across families never. -/
def spec_at_least_as_permissive (old_value new_value : Range) : Bool :=
  match old_value, new_value with
  | .Minimum l, .Minimum r => decide (r ≤ l)
  | .Minimum l, .ExclusiveMinimum r => decide (r ≤ l)
  | .ExclusiveMinimum l, .Minimum r => decide (r ≤ l)
  | .ExclusiveMinimum l, .ExclusiveMinimum r => decide (r ≤ l)
  | .Maximum l, .Maximum r => decide (l ≤ r)
  | .Maximum l, .ExclusiveMaximum r => decide (l ≤ r)
  | .ExclusiveMaximum l, .Maximum r => decide (l ≤ r)
  | .ExclusiveMaximum l, .ExclusiveMaximum r => decide (l ≤ r)
  | _, _ => false

/-- An inclusive bound turning into the exclusive bound of the same family at the
same value. -/
def spec_inclusive_to_exclusive_same_value (old_value new_value : Range) : Bool :=
  match old_value, new_value with
  | .Minimum l, .ExclusiveMinimum r => decide (l = r)
  | .Maximum l, .ExclusiveMaximum r => decide (l = r)
  | _, _ => false

/-- An inclusive bound turning into the exclusive bound of the same family, at any
value. -/
def spec_inclusive_to_exclusive (old_value new_value : Range) : Bool :=
  match old_value, new_value with
  | .Minimum _, .ExclusiveMinimum _ => true
  | .Maximum _, .ExclusiveMaximum _ => true
  | _, _ => false

/-- Claim C1's breaking table read literally: identical to the source for every
kind except `RangeChange`, which it makes breaking exactly when the new bound is
not at least as permissive, or is an inclusive-to-exclusive switch at the same
value. -/
def claim_is_breaking : ChangeKind → Bool
  | .RangeChange old_value new_value =>
    !(spec_at_least_as_permissive old_value new_value) ||
      spec_inclusive_to_exclusive_same_value old_value new_value
  | k => ChangeKind.is_breaking k

/-- The amended C1 table: as the claim, except that every inclusive-to-exclusive
switch is breaking, not only those at the same value. -/
def amended_is_breaking : ChangeKind → Bool
  | .RangeChange old_value new_value =>
    !(spec_at_least_as_permissive old_value new_value) ||
      spec_inclusive_to_exclusive old_value new_value
  | k => ChangeKind.is_breaking k

/-- The range facet as the amended claim C4 words it: for `minimum` and for
`maximum` independently — both absent: nothing; one side absent: `RangeAdd` /
`RangeRemove`; both present and unequal: `RangeChange`; and the exclusive bounds
are never consulted and never produce a record. -/
def range_facet_spec (json_path : String) (nvl nvr : NumberValidation) : List Change :=
  (match nvl.minimum, nvr.minimum with
   | none, none => []
   | none, some v => [Change.mk json_path (.RangeAdd (.Minimum v))]
   | some v, none => [Change.mk json_path (.RangeRemove (.Minimum v))]
   | some a, some b =>
     if a = b then [] else [Change.mk json_path (.RangeChange (.Minimum a) (.Minimum b))]) ++
  (match nvl.maximum, nvr.maximum with
   | none, none => []
   | none, some v => [Change.mk json_path (.RangeAdd (.Maximum v))]
   | some v, none => [Change.mk json_path (.RangeRemove (.Maximum v))]
   | some a, some b =>
     if a = b then [] else [Change.mk json_path (.RangeChange (.Maximum a) (.Maximum b))])

/-- The node shape produced by const normalization of an object constant (amended
claim C9): only the derived `properties`, everything else absent. -/
def const_object_node (props : List (String × Schema)) : SchemaObject :=
  .mk none none none none none (some (.mk [] props [] none)) none none

/-- The node shape produced by const normalization of a primitive constant (amended
claim C9): only that `const`, everything else absent. -/
def const_primitive_node (v : JsonValue) : SchemaObject :=
  .mk none (some v) none none none none none none

/-- A root schema with an empty schema object and no definitions. -/
def emptyRoot : RootSchema := ⟨defaultSchemaObject, []⟩

/-- The root schema `{"type": "string"}`. -/
def exStringRoot : RootSchema :=
  ⟨.mk (some (.single .String)) none none none none none none none, []⟩

/-- The node `{"const": 1}`. -/
def exConst1 : SchemaObject := .mk none (some (.num 1)) none none none none none none

/-- The node `{"const": 2}`. -/
def exConst2 : SchemaObject := .mk none (some (.num 2)) none none none none none none

/-- The node `{"type": "object"}`. -/
def exObjectNode : SchemaObject := .mk (some (.single .Object)) none none none none none none none

/-- Root schema `{"$ref": "#/definitions/A", "definitions": {"A": {"type": "object"}}}`. -/
def c6RootDefinitions : RootSchema :=
  ⟨.mk none none none none none none none (some ("#/definitions/A")),
   [("A", Schema.obj exObjectNode)]⟩

/-- Root schema `{"$ref": "#/$defs/A", "$defs": {"A": {"type": "object"}}}` (schemars
parses the `$defs` JSON key into the same definitions map via a serde alias; only
the reference string differs from `c6RootDefinitions`). -/
def c6RootDefs : RootSchema :=
  ⟨.mk none none none none none none none (some ("#/$defs/A")),
   [("A", Schema.obj exObjectNode)]⟩

/-- Root schema `{"type": "object"}`. -/
def c6RhsRoot : RootSchema := ⟨exObjectNode, []⟩

/-- A node that is only `{"$ref": "#/definitions/Missing"}`. -/
def c7Lhs : SchemaObject := .mk none none none none none none none (some ("#/definitions/Missing"))

/-- The node `{"type": "string", "const": "hello"}`. -/
def c9Node : SchemaObject :=
  .mk (some (.single .String)) (some (.str "hello")) none none none none none none

/-- The node `{"const": {"a": 1}}`. -/
def c9ObjNode : SchemaObject :=
  .mk none (some (.obj [("a", .num 1)])) none none none none none none

/-- A node carrying a single-schema `items` and nothing else. -/
def c10Lhs : SchemaObject :=
  .mk none none none none none none (some (.mk (some (.single (.bool true))))) none

mutual
theorem jsonValueBeq_refl : ∀ v : JsonValue, v.beq v = true
  | .null => rfl
  | .bool b => by simp [JsonValue.beq]
  | .num q => by simp [JsonValue.beq]
  | .str s => by simp [JsonValue.beq]
  | .arr l => by simp [JsonValue.beq, jsonListBeq_refl l]
  | .obj m => by simp [JsonValue.beq, jsonMapBeq_refl m]

theorem jsonListBeq_refl : ∀ l : List JsonValue, jsonListBeq l l = true
  | [] => rfl
  | a :: as => by simp [jsonListBeq, jsonValueBeq_refl a, jsonListBeq_refl as]

theorem jsonMapBeq_refl : ∀ l : List (String × JsonValue), jsonMapBeq l l = true
  | [] => rfl
  | (k, v) :: as => by simp [jsonMapBeq, jsonValueBeq_refl v, jsonMapBeq_refl as]
end

set_option maxHeartbeats 2000000

theorem optJsonValueBeq_refl (o : Option JsonValue) : optJsonValueBeq o o = true := by
  cases o with
  | none => rfl
  | some v => exact jsonValueBeq_refl v

mutual
theorem schemaBeq_refl : ∀ s : Schema, Schema.beq s s = true
  | .bool b => by simp [Schema.beq]
  | .obj o => by simp [Schema.beq, schemaObjectBeq_refl o]

theorem schemaObjectBeq_refl : ∀ s : SchemaObject, SchemaObject.beq s s = true
  | .mk it cv ss n st o a r => by
    simp [SchemaObject.beq, optJsonValueBeq_refl cv, optSubschemaBeq_refl ss,
      optObjectValidationBeq_refl o, optArrayValidationBeq_refl a]

theorem subschemaValidationBeq_refl :
    ∀ s : SubschemaValidation, SubschemaValidation.beq s s = true
  | .mk ao nt => by
    simp [SubschemaValidation.beq, optSchemaListBeq_refl ao, optSchemaBeq_refl nt]

theorem objectValidationBeq_refl : ∀ s : ObjectValidation, ObjectValidation.beq s s = true
  | .mk req props pp ap => by
    simp [ObjectValidation.beq, schemaMapBeq_refl props, schemaMapBeq_refl pp,
      optSchemaBeq_refl ap]

theorem arrayValidationBeq_refl : ∀ s : ArrayValidation, ArrayValidation.beq s s = true
  | .mk i => by simp [ArrayValidation.beq, optSovSchemaBeq_refl i]

theorem optSubschemaBeq_refl :
    ∀ o : Option SubschemaValidation, optSubschemaBeq o o = true
  | none => by simp [optSubschemaBeq]
  | some x => by simp [optSubschemaBeq, subschemaValidationBeq_refl x]

theorem optObjectValidationBeq_refl :
    ∀ o : Option ObjectValidation, optObjectValidationBeq o o = true
  | none => by simp [optObjectValidationBeq]
  | some x => by simp [optObjectValidationBeq, objectValidationBeq_refl x]

theorem optArrayValidationBeq_refl :
    ∀ o : Option ArrayValidation, optArrayValidationBeq o o = true
  | none => by simp [optArrayValidationBeq]
  | some x => by simp [optArrayValidationBeq, arrayValidationBeq_refl x]

theorem optSchemaBeq_refl : ∀ o : Option Schema, optSchemaBeq o o = true
  | none => by simp [optSchemaBeq]
  | some s => by simp [optSchemaBeq, schemaBeq_refl s]

theorem optSchemaListBeq_refl : ∀ o : Option (List Schema), optSchemaListBeq o o = true
  | none => by simp [optSchemaListBeq]
  | some l => by simp [optSchemaListBeq, schemaListBeq_refl l]

theorem optSovSchemaBeq_refl : ∀ o : Option (SingleOrVec Schema), optSovSchemaBeq o o = true
  | none => by simp [optSovSchemaBeq]
  | some (.single s) => by simp [optSovSchemaBeq, schemaBeq_refl s]
  | some (.vec l) => by simp [optSovSchemaBeq, schemaListBeq_refl l]

theorem schemaListBeq_refl : ∀ l : List Schema, schemaListBeq l l = true
  | [] => by simp [schemaListBeq]
  | a :: as => by simp [schemaListBeq, schemaBeq_refl a, schemaListBeq_refl as]

theorem schemaMapBeq_refl : ∀ l : List (String × Schema), schemaMapBeq l l = true
  | [] => by simp [schemaMapBeq]
  | (k, v) :: as => by simp [schemaMapBeq, schemaBeq_refl v, schemaMapBeq_refl as]
end

theorem filter_not_contains_self {α : Type} [BEq α] [LawfulBEq α] (l : List α) :
    l.filter (fun k => !(l.contains k)) = [] := by
  rw [List.filter_eq_nil_iff]
  intro a ha
  simpa using ha

theorem zip_self {α : Type} (l : List α) : l.zip l = l.map (fun x => (x, x)) := by
  induction l with
  | nil => rfl
  | cons a as ih => simp [ih]

theorem foldl_add_zero (L : List ℕ) (g : ℕ → ℕ) (acc : ℕ)
    (h : ∀ i ∈ L, g i = 0) : L.foldl (fun a i => a + g i) acc = acc := by
  induction L generalizing acc with
  | nil => rfl
  | cons x xs ih =>
    have hx := h x (List.mem_cons_self x xs)
    simp only [List.foldl_cons, hx, Nat.add_zero]
    exact ih acc (fun i hi => h i (List.mem_cons_of_mem _ hi))

theorem sevenKinds_nodup : sevenKinds.Nodup := by decide

theorem sevenKinds_sorted : sevenKinds.Sorted jstLe := by decide

theorem sevenKinds_complete (a : JsonSchemaType) : a ∈ sevenKinds := by
  cases a <;> decide

theorem canonical_of_sorted_nodup (L : List JsonSchemaType)
    (hs : L.Sorted jstLe) (hn : L.Nodup) :
    L = sevenKinds.filter (fun k => L.contains k) := by
  have hn2 : (sevenKinds.filter (fun k => L.contains k)).Nodup := sevenKinds_nodup.filter _
  have hs2 : (sevenKinds.filter (fun k => L.contains k)).Sorted jstLe :=
    sevenKinds_sorted.filter _
  refine List.eq_of_perm_of_sorted ?_ hs hs2
  refine (List.perm_ext_iff_of_nodup hn hn2).mpr ?_
  intro a
  simp only [List.mem_filter]
  constructor
  · intro ha
    exact ⟨sevenKinds_complete a, by simpa using ha⟩
  · rintro ⟨-, h⟩
    simpa using h

theorem into_set_sorted (t : InternalJsonSchemaType) : t.into_set.Sorted jstLe :=
  (List.sorted_insertionSort jstLe t.explode).sublist (List.dedup_sublist _)

theorem into_set_nodup (t : InternalJsonSchemaType) : t.into_set.Nodup :=
  List.nodup_dedup _

theorem mem_into_set (t : InternalJsonSchemaType) (a : JsonSchemaType) :
    a ∈ t.into_set ↔ a ∈ t.explode := by
  rw [InternalJsonSchemaType.into_set, List.mem_dedup]
  exact (List.perm_insertionSort jstLe t.explode).mem_iff

theorem into_set_filter (t : InternalJsonSchemaType) (p : JsonSchemaType → Bool) :
    t.into_set.filter p =
      sevenKinds.filter (fun k => t.into_set.contains k && p k) := by
  conv_lhs => rw [canonical_of_sorted_nodup t.into_set (into_set_sorted t) (into_set_nodup t)]
  rw [List.filter_filter]
  exact List.filter_congr (fun a _ => Bool.and_comm _ _)

theorem pickMin_zero (f : List ℕ → ℕ) (cands : List (List ℕ)) (best : List ℕ)
    (hb : f best = 0) : pickMin f cands best = best := by
  induction cands with
  | nil => rfl
  | cons c rest ih => simp [pickMin, hb, ih]

theorem pickMin_le (f : List ℕ → ℕ) (cands : List (List ℕ)) : ∀ best : List ℕ,
    f (pickMin f cands best) ≤ f best ∧
      ∀ c ∈ cands, f (pickMin f cands best) ≤ f c := by
  induction cands with
  | nil => exact fun best => ⟨le_refl _, by simp⟩
  | cons c rest ih =>
    intro best
    simp only [pickMin]
    by_cases h : f c < f best
    · rw [if_pos h]
      refine ⟨le_trans (ih c).1 h.le, ?_⟩
      intro d hd
      rcases List.mem_cons.mp hd with rfl | hd
      · exact (ih d).1
      · exact (ih c).2 d hd
    · rw [if_neg h]
      refine ⟨(ih best).1, ?_⟩
      intro d hd
      rcases List.mem_cons.mp hd with rfl | hd
      · exact le_trans (ih best).1 (not_lt.mp h)
      · exact (ih best).2 d hd

theorem permutations_range_eq (n : ℕ) :
    (List.range n).permutations = List.range n :: (List.range n).permutations.tail := by
  rfl

theorem hungarian_minimize_min (mat : List ℕ) (n : ℕ) (σ : List ℕ)
    (hσ : List.Perm σ (List.range n)) :
    assignment_cost mat n (hungarian_minimize mat n) ≤ assignment_cost mat n σ := by
  have hmem : σ ∈ (List.range n).permutations := List.mem_permutations.mpr hσ
  rw [permutations_range_eq] at hmem
  rcases List.mem_cons.mp hmem with rfl | hmem
  · exact (pickMin_le (assignment_cost mat n) _ _).1
  · exact (pickMin_le (assignment_cost mat n) _ _).2 σ hmem

theorem hungarian_minimize_ident (mat : List ℕ) (n : ℕ)
    (h : assignment_cost mat n (List.range n) = 0) :
    hungarian_minimize mat n = List.range n :=
  pickMin_zero _ _ _ h

theorem build_score_matrix_cons (a : Schema) (A B : List Schema) :
    build_score_matrix (a :: A) B =
      B.map (fun r => a.diff_score r) ++ build_score_matrix A B := by
  simp [build_score_matrix]

theorem build_score_matrix_entry (A B : List Schema) : ∀ i j : ℕ,
    i < A.length → j < B.length →
    (build_score_matrix A B).getD (i * B.length + j) 0 =
      Schema.diff_score (A.getD i (.bool false)) (B.getD j (.bool false)) := by
  induction A with
  | nil => intro i j hi _; simp at hi
  | cons a A ih =>
    intro i j hi hj
    rw [build_score_matrix_cons]
    cases i with
    | zero =>
      simp only [Nat.zero_mul, Nat.zero_add]
      rw [List.getD_eq_getElem?_getD, List.getElem?_append_left (by simpa using hj),
        List.getElem?_map, List.getElem?_eq_getElem hj]
      simp [List.getD_eq_getElem?_getD, List.getElem?_eq_getElem hj]
    | succ i =>
      have hlen : (B.map (fun r => a.diff_score r)).length = B.length := by simp
      have hidx : (i + 1) * B.length + j = B.length + (i * B.length + j) := by ring
      rw [List.getD_eq_getElem?_getD, hidx, List.getElem?_append_right (by simp),
        ← List.getD_eq_getElem?_getD]
      simp only [hlen, Nat.add_sub_cancel_left]
      exact ih i j (Nat.lt_of_succ_lt_succ hi) hj

theorem numberDiffScore_self (nv : NumberValidation) : nv.diff_score nv = 0 := by
  simp [NumberValidation.diff_score]

theorem stringDiffScore_self (sv : StringValidation) : sv.diff_score sv = 0 := by
  simp [StringValidation.diff_score]

theorem objectDiffScore_self (ov : ObjectValidation) : ov.diff_score ov = 0 := by
  simp [ObjectValidation.diff_score, schemaMapBeq_refl, optSchemaBeq_refl]

theorem schemaObjectDiffScore_self (s : SchemaObject) : s.diff_score s = 0 := by
  simp [SchemaObject.diff_score, numberDiffScore_self,
    stringDiffScore_self, objectDiffScore_self]

theorem schemaDiffScore_self (s : Schema) : s.diff_score s = 0 :=
  schemaObjectDiffScore_self _

theorem diff_instance_types_self (json_path : String) (s : SchemaObject) :
    diff_instance_types json_path s s = [] := by
  simp [diff_instance_types, filter_not_contains_self]

theorem range_case_self (json_path : String) (range : ℚ → Range) (o : Option ℚ) :
    range_case json_path range o o = none := by
  cases o <;> simp [range_case]

theorem diff_range_self (json_path : String) (s : SchemaObject) :
    diff_range json_path s s = [] := by
  simp [diff_range, range_case_self]

theorem diff_required_self (json_path : String) (s : SchemaObject) :
    diff_required json_path s s = [] := by
  simp [diff_required, filter_not_contains_self]

theorem diff_const_self (json_path : String) (s : SchemaObject) :
    diff_const json_path s s = ([], normalize_const s, normalize_const s) := by
  unfold diff_const
  cases h : (normalize_const s).const_value with
  | none => simp [h]
  | some v => simp [h, jsonValueBeq_refl]

theorem diff_additional_properties_self
    (recur : String → SchemaObject → SchemaObject → Option (List Change))
    (json_path : String) (s : SchemaObject) :
    diff_additional_properties recur json_path s s = some [] := by
  unfold diff_additional_properties
  cases h : s.objectV.additional_properties with
  | none => simp [h]
  | some ap => simp [h, schemaBeq_refl]

theorem diff_properties_loop_self
    (recur : String → SchemaObject → SchemaObject → Option (List Change))
    (Hr : ∀ p a, recur p a a = none ∨ recur p a a = some [])
    (json_path : String) (P : List (String × Schema)) :
    ∀ ks : List String,
      diff_properties_loop recur json_path P P ks = none ∨
        diff_properties_loop recur json_path P P ks = some [] := by
  intro ks
  induction ks with
  | nil => right; simp [diff_properties_loop]
  | cons k rest ih =>
    simp only [diff_properties_loop]
    rcases Hr (json_path ++ "." ++ k) ((mapGet P k).getD (.bool true)).into_object with h | h <;>
      rw [h]
    · left; rfl
    · rcases ih with h2 | h2 <;> rw [h2] <;> simp

theorem diff_properties_self
    (recur : String → SchemaObject → SchemaObject → Option (List Change))
    (Hr : ∀ p a, recur p a a = none ∨ recur p a a = some [])
    (json_path : String) (s : SchemaObject) :
    diff_properties recur json_path s s = none ∨
      diff_properties recur json_path s s = some [] := by
  unfold diff_properties
  simp only [filter_not_contains_self, List.map_nil, List.nil_append]
  rcases diff_properties_loop_self recur Hr json_path s.objectV.properties
    ((btreeSetOfKeys s.objectV.properties).filter
      (fun k => (btreeSetOfKeys s.objectV.properties).contains k)) with h | h <;>
    rw [h] <;> simp

theorem diff_items_loop_self
    (recur : String → SchemaObject → SchemaObject → Option (List Change))
    (Hr : ∀ p a, recur p a a = none ∨ recur p a a = some [])
    (json_path : String) :
    ∀ (pairs : List (Schema × Schema)) (i : ℕ), (∀ p ∈ pairs, p.1 = p.2) →
      diff_items_loop recur json_path i pairs = none ∨
        diff_items_loop recur json_path i pairs = some [] := by
  intro pairs
  induction pairs with
  | nil => intro i _; right; simp [diff_items_loop]
  | cons p rest ih =>
    intro i hall
    obtain ⟨a, b⟩ := p
    have hab : a = b := hall (a, b) (List.mem_cons_self _ _)
    subst hab
    simp only [diff_items_loop]
    rcases Hr (json_path ++ "." ++ toString i) a.into_object with h | h <;> rw [h]
    · left; rfl
    · rcases ih (i + 1) (fun q hq => hall q (List.mem_cons_of_mem _ hq)) with h2 | h2 <;>
        rw [h2] <;> simp

theorem diff_array_items_self
    (recur : String → SchemaObject → SchemaObject → Option (List Change))
    (Hr : ∀ p a, recur p a a = none ∨ recur p a a = some [])
    (json_path : String) (s : SchemaObject) :
    diff_array_items recur json_path s s = none ∨
      diff_array_items recur json_path s s = some [] := by
  unfold diff_array_items
  cases h : s.arrayV.items with
  | none => right; simp [h]
  | some sv =>
    cases sv with
    | single inner =>
      simp only [h]
      exact Hr (json_path ++ ".?") inner.into_object
    | vec items =>
      simp only [h, ne_eq, not_true_eq_false, if_neg, reduceIte]
      have hdiag : ∀ p ∈ items.zip items, (p : Schema × Schema).1 = p.2 := by
        rw [zip_self]
        intro p hp
        rcases List.mem_map.mp hp with ⟨x, -, rfl⟩
        rfl
      rcases diff_items_loop_self recur Hr json_path (items.zip items) 0 hdiag with h2 | h2 <;>
        rw [h2] <;> simp

theorem run_pairs_diag
    (recurAny : String → SchemaObject → SchemaObject → Option (List Change))
    (HrAny : ∀ p a, recurAny p a a = none ∨ recurAny p a a = some [])
    (json_path : String) (is_rhs_split : Bool) (l : List Schema) :
    ∀ pairs : List (ℕ × ℕ), (∀ p ∈ pairs, p.1 = p.2) →
      run_pairs recurAny json_path is_rhs_split l l pairs = none ∨
        run_pairs recurAny json_path is_rhs_split l l pairs = some [] := by
  intro pairs
  induction pairs with
  | nil => intro _; right; simp [run_pairs]
  | cons p rest ih =>
    intro hall
    obtain ⟨i, j⟩ := p
    have hij : i = j := hall (i, j) (List.mem_cons_self _ _)
    subst hij
    simp only [run_pairs]
    rcases HrAny (if is_rhs_split then json_path
      else json_path ++ ".<anyOf:" ++ toString i ++ ">") ((l.getD i (.bool false)).into_object)
      with h | h <;> rw [h]
    · left; rfl
    · rcases ih (fun q hq => hall q (List.mem_cons_of_mem _ hq)) with h2 | h2 <;>
        rw [h2] <;> simp

theorem resolve_references_same (root : RootSchema) (s : SchemaObject) :
    ∃ s', resolve_references root root s s = (s', s') :=
  ⟨_, rfl⟩

theorem diff_any_of_self
    (recurAny : String → SchemaObject → SchemaObject → Option (List Change))
    (HrAny : ∀ p a, recurAny p a a = none ∨ recurAny p a a = some [])
    (json_path : String) (is_rhs_split : Bool) (s : SchemaObject) :
    diff_any_of recurAny json_path is_rhs_split s s = none ∨
      ∃ s', diff_any_of recurAny json_path is_rhs_split s s = some ([], s', s') := by
  unfold diff_any_of
  cases h : s.subschemasV.any_of with
  | none => right; exact ⟨s, by simp [h]⟩
  | some l =>
    have hpad : pad_any_of l l = (l, l) := by simp [pad_any_of]
    simp only [h, hpad]
    have hcost : assignment_cost (build_score_matrix l l) l.length (List.range l.length) = 0 := by
      unfold assignment_cost
      rw [zip_self, List.foldl_map]
      simp only
      refine foldl_add_zero _ (fun i => (build_score_matrix l l).getD (i * l.length + i) 0) 0 ?_
      intro i hi
      have hi' : i < l.length := List.mem_range.mp hi
      show (build_score_matrix l l).getD (i * l.length + i) 0 = 0
      rw [build_score_matrix_entry l l i i hi' hi']
      exact schemaDiffScore_self _
    rw [hungarian_minimize_ident _ _ hcost]
    have hdiag : ∀ p ∈ (List.range l.length).zip (List.range l.length),
        (p : ℕ × ℕ).1 = p.2 := by
      rw [zip_self]
      intro p hp
      rcases List.mem_map.mp hp with ⟨x, -, rfl⟩
      rfl
    rcases run_pairs_diag recurAny HrAny json_path is_rhs_split l
      ((List.range l.length).zip (List.range l.length)) hdiag with hr | hr <;> rw [hr]
    · left; rfl
    · right; exact ⟨s.set_any_of l, rfl⟩

theorem do_diff_self (root : RootSchema) :
    ∀ (fuel : ℕ) (json_path : String) (c : Bool) (s : SchemaObject),
      do_diff root root fuel json_path c s s = none ∨
        do_diff root root fuel json_path c s s = some [] := by
  intro fuel
  induction fuel with
  | zero => intro json_path c s; left; simp [do_diff]
  | succ fuel ih =>
    intro json_path c s
    obtain ⟨s1, hres⟩ := resolve_references_same root s
    rw [do_diff.eq_2, hres]
    rcases diff_any_of_self (fun p a b => do_diff root root fuel p true a b)
      (fun p a => ih p true a) json_path (split_types s1).2 (split_types s1).1 with h1 | ⟨s2, h1⟩
    · left
      rw [h1]
      rfl
    · rw [h1]
      simp only [Option.bind_eq_bind, Option.some_bind, diff_const_self,
        diff_instance_types_self, ite_self]
      cases hb : (split_types s1).2 with
      | true =>
        right
        simp [hb]
      | false =>
        simp only [hb, Bool.not_false, Bool.and_self, if_true]
        rcases diff_properties_self (fun p a b => do_diff root root fuel p false a b)
          (fun p a => ih p false a) json_path (normalize_const s2) with hp | hp <;> rw [hp]
        · left; rfl
        · simp only [Option.bind_eq_bind, Option.some_bind, diff_range_self,
            diff_additional_properties_self]
          rcases diff_array_items_self (fun p a b => do_diff root root fuel p false a b)
            (fun p a => ih p false a) json_path (normalize_const s2) with hA | hA <;> rw [hA]
          · left; rfl
          · right; simp [diff_required_self]

theorem if_false_true (p : Prop) [Decidable p] : (if p then false else true) = !decide p := by
  by_cases h : p <;> simp [h]

/-- Claim C1 (corrected): `ChangeKind::is_breaking` matches the claimed table for
every kind, once the table's `RangeChange` clause is amended so that every
inclusive-to-exclusive switch is breaking (not only switches at the same value):
non-breaking exactly when the bound family is preserved (lower or upper), the
value moves in the non-restricting direction, and the bound does not go from
inclusive to exclusive. -/
theorem c1_breaking_table (k : ChangeKind) :
    ChangeKind.is_breaking k = amended_is_breaking k := by
  cases k <;> try rfl
  rename_i old_value new_value
  cases old_value <;> cases new_value <;>
    simp [ChangeKind.is_breaking, amended_is_breaking, spec_at_least_as_permissive,
      spec_inclusive_to_exclusive, if_false_true, ge_iff_le]

/-- Claim C1 counterexample: at `RangeChange { old: Minimum 5, new: ExclusiveMinimum 3 }`
the code reports breaking, while the claim's table (new bound at least as
permissive — the lower bound went from 5 inclusive to 3 exclusive — and not an
inclusive-to-exclusive switch at the same value) reports non-breaking. -/
theorem c1_counterexample :
    ChangeKind.is_breaking (.RangeChange (.Minimum 5) (.ExclusiveMinimum 3)) = true ∧
    claim_is_breaking (.RangeChange (.Minimum 5) (.ExclusiveMinimum 3)) = false := by
  constructor
  · rfl
  · simp [claim_is_breaking, spec_at_least_as_permissive,
      spec_inclusive_to_exclusive_same_value]
    norm_num

/-- Claim C2: the emitted `TypeRemove` records are exactly the kinds of
`effective_type(LHS).into_set() - effective_type(RHS).into_set()` and the
`TypeAdd` records exactly the reverse difference, both enumerated in the fixed
kind order String, Number, Integer, Object, Array, Boolean, Null; and `into_set`
expands `Number` to {Number, Integer}, `Any` to all seven kinds and `Never` to
the empty set. -/
theorem c2_type_set_determinism (json_path : String) (lhs rhs : SchemaObject) :
    diff_instance_types json_path lhs rhs =
      (sevenKinds.filter (fun k =>
        (lhs.effective_type.into_set.contains k) &&
        !(rhs.effective_type.into_set.contains k))).map
        (fun removed => Change.mk json_path (.TypeRemove removed)) ++
      (sevenKinds.filter (fun k =>
        (rhs.effective_type.into_set.contains k) &&
        !(lhs.effective_type.into_set.contains k))).map
        (fun added => Change.mk json_path (.TypeAdd added)) ∧
    (InternalJsonSchemaType.Simple .Number).into_set = [.Number, .Integer] ∧
    (InternalJsonSchemaType.Any).into_set = sevenKinds ∧
    (InternalJsonSchemaType.Never).into_set = [] := by
  refine ⟨?_, by decide, by decide, by decide⟩
  simp only [diff_instance_types]
  rw [into_set_filter, into_set_filter]

/-- Claim C3: the walk is reflexive — whenever `diff(S, S)` terminates (any fuel),
it reports no changes. -/
theorem c3_reflexivity (S : RootSchema) (fuel : ℕ) (l : List Change)
    (h : walk_diff S S fuel = some l) : l = [] := by
  rcases do_diff_self S fuel ("") false S.schema with h0 | h0 <;>
    (rw [walk_diff] at h; rw [h0] at h)
  · cases h
  · exact (Option.some.inj h).symm

theorem c3_reflexivity_witness :
    walk_diff exStringRoot exStringRoot 1 = some [] ∧ (([] : List Change) = []) := by
  have heval : walk_diff exStringRoot exStringRoot 1 = some [] := by
    simp [walk_diff, do_diff, exStringRoot, resolve_references, resolve_ref,
      split_types, SchemaObject.effective_type, SchemaObject.subschemasV,
      SchemaObject.subschemas, SubschemaValidation.any_of, defaultSubschemaValidation,
      SchemaObject.reference, SchemaObject.instance_type, SchemaObject.const_value,
      SchemaObject.object, SchemaObject.array, SchemaObject.number, SchemaObject.string,
      jstOfInstanceType, diff_any_of, diff_instance_types,
      InternalJsonSchemaType.into_set, InternalJsonSchemaType.explode, explodeSimple,
      sevenKinds, List.insertionSort, List.orderedInsert, diff_const, normalize_const,
      diff_properties, btreeSetOfKeys, diff_properties_loop, sortStrings,
      SchemaObject.objectV, defaultObjectValidation, ObjectValidation.properties,
      ObjectValidation.required, ObjectValidation.additional_properties,
      diff_range, SchemaObject.number_validation, SchemaObject.numberV, range_case,
      diff_additional_properties, diff_array_items, SchemaObject.arrayV,
      defaultArrayValidation, ArrayValidation.items, diff_required]
  exact ⟨heval, c3_reflexivity exStringRoot 1 [] heval⟩

theorem range_case_toList (json_path : String) (range : ℚ → Range) (l r : Option ℚ) :
    (range_case json_path range l r).toList =
      match l, r with
      | none, none => []
      | none, some v => [Change.mk json_path (.RangeAdd (range v))]
      | some v, none => [Change.mk json_path (.RangeRemove (range v))]
      | some a, some b =>
        if a = b then []
        else [Change.mk json_path (.RangeChange (range a) (range b))] := by
  cases l with
  | none => cases r <;> simp [range_case]
  | some a =>
    cases r with
    | none => simp [range_case]
    | some b => by_cases h : a = b <;> simp [range_case, h]

/-- Claim C4 (corrected): the range facet diffs `minimum` and `maximum`
independently with the three-case pattern (both absent: nothing; one side absent:
`RangeAdd`/`RangeRemove`; both present and unequal: `RangeChange`), on the values
returned by `number_validation()`; `exclusiveMinimum` and `exclusiveMaximum` are
never consulted and never produce a record (`range_facet_spec` reads only the
`minimum` and `maximum` fields). -/
theorem c4_range_facet (json_path : String) (lhs rhs : SchemaObject) :
    diff_range json_path lhs rhs =
      range_facet_spec json_path lhs.number_validation rhs.number_validation := by
  unfold diff_range range_facet_spec
  rw [range_case_toList, range_case_toList]

/-- Claim C4 counterexample: two nodes that differ only in `exclusiveMinimum`
(values 1 and 2) produce no range record at all, while the claim requires a
`RangeChange`. -/
theorem c4_counterexample :
    (SchemaObject.mk none none none (some { exclusiveMinimum := some 1 })
        none none none none).numberV.exclusiveMinimum ≠
      (SchemaObject.mk none none none (some { exclusiveMinimum := some 2 })
        none none none none).numberV.exclusiveMinimum ∧
    diff_range ("")
      (SchemaObject.mk none none none (some { exclusiveMinimum := some 1 })
        none none none none)
      (SchemaObject.mk none none none (some { exclusiveMinimum := some 2 })
        none none none none) = [] := by
  constructor
  · simp [SchemaObject.numberV, SchemaObject.number]
  · simp [diff_range, range_case, SchemaObject.number_validation, SchemaObject.numberV,
      SchemaObject.number, SchemaObject.subschemasV, SchemaObject.subschemas,
      defaultSubschemaValidation, SubschemaValidation.any_of]

/-- Claim C5 (corrected): the anyOf aligner pads both branch lists to the common
length `max |lhs| |rhs|` with always-false branches; cell `(i, j)` of the row-major
cost matrix is `diff_score(lhs[i], rhs[j])` — the heuristic score, not a trial
recursive diff count — and the assignment used is of minimum total cost among all
assignments. -/
theorem c5_any_of_alignment :
    (∀ lhs_any_of rhs_any_of : List Schema,
      (pad_any_of lhs_any_of rhs_any_of).1.length =
        max lhs_any_of.length rhs_any_of.length ∧
      (pad_any_of lhs_any_of rhs_any_of).2.length =
        max lhs_any_of.length rhs_any_of.length) ∧
    (∀ (A B : List Schema) (i j : ℕ), i < A.length → j < B.length →
      (build_score_matrix A B).getD (i * B.length + j) 0 =
        Schema.diff_score (A.getD i (.bool false)) (B.getD j (.bool false))) ∧
    (∀ (mat : List ℕ) (n : ℕ) (σ : List ℕ), List.Perm σ (List.range n) →
      assignment_cost mat n (hungarian_minimize mat n) ≤ assignment_cost mat n σ) := by
  refine ⟨?_, fun A B i j hi hj => build_score_matrix_entry A B i j hi hj,
    fun mat n σ hσ => hungarian_minimize_min mat n σ hσ⟩
  intro A B
  unfold pad_any_of
  by_cases h : A.length ≤ B.length <;> (simp [h]; try omega)

theorem c5_any_of_alignment_witness :
    (build_score_matrix [Schema.obj exConst1] [Schema.obj exConst2]).getD 0 0 =
      Schema.diff_score (Schema.obj exConst1) (Schema.obj exConst2) ∧
    assignment_cost [0, 5, 5, 0] 2 (hungarian_minimize [0, 5, 5, 0] 2) ≤
      assignment_cost [0, 5, 5, 0] 2 [1, 0] := by
  constructor
  · have h := c5_any_of_alignment.2.1 [Schema.obj exConst1] [Schema.obj exConst2] 0 0
      (by decide) (by decide)
    simpa using h
  · exact c5_any_of_alignment.2.2 [0, 5, 5, 0] 2 [1, 0] (by decide)

/-- Claim C5 counterexample: for the branches `{"const": 1}` and `{"const": 2}`
the cost-matrix cell is 0 (same effective type, identical facet groups), but a
trial recursive diff of the two branches emits two change records
(`ConstRemove` then `ConstAdd`), so the cell is not the trial diff's record
count. -/
theorem c5_counterexample :
    (build_score_matrix [Schema.obj exConst1] [Schema.obj exConst2]).getD 0 0 = 0 ∧
    (do_diff emptyRoot emptyRoot 1 ("") false exConst1 exConst2).map List.length = some 2 := by
  constructor
  · simp [build_score_matrix, Schema.diff_score, Schema.into_object,
      SchemaObject.diff_score, SchemaObject.effective_type, serde_value_to_own,
      exConst1, exConst2, SchemaObject.instance_type, SchemaObject.const_value,
      SchemaObject.object, SchemaObject.numberV, SchemaObject.stringV,
      SchemaObject.objectV, SchemaObject.number, SchemaObject.string,
      defaultObjectValidation, NumberValidation.diff_score, StringValidation.diff_score,
      ObjectValidation.diff_score, ObjectValidation.required, ObjectValidation.properties,
      ObjectValidation.pattern_properties, ObjectValidation.additional_properties,
      schemaMapBeq, optSchemaBeq]
  · simp [do_diff, emptyRoot, exConst1, exConst2, resolve_references, resolve_ref,
      defaultSchemaObject, split_types, SchemaObject.effective_type,
      SchemaObject.subschemasV, SchemaObject.subschemas, defaultSubschemaValidation,
      SubschemaValidation.any_of, SchemaObject.reference, SchemaObject.instance_type,
      SchemaObject.const_value, SchemaObject.object, SchemaObject.array,
      SchemaObject.number, SchemaObject.string, serde_value_to_own, diff_any_of,
      diff_instance_types, InternalJsonSchemaType.into_set,
      InternalJsonSchemaType.explode, explodeSimple, sevenKinds, List.insertionSort,
      List.orderedInsert, jstLe, jstIdx, diff_const, normalize_const, do_normalize,
      JsonValue.beq,
      diff_properties, btreeSetOfKeys, diff_properties_loop, sortStrings,
      SchemaObject.objectV, defaultObjectValidation, ObjectValidation.properties,
      ObjectValidation.required, ObjectValidation.additional_properties,
      diff_range, SchemaObject.number_validation, SchemaObject.numberV, range_case,
      diff_additional_properties, diff_array_items, SchemaObject.arrayV,
      defaultArrayValidation, ArrayValidation.items, diff_required]

/-- Claim C6 (code bug): the same definition referenced as `#/definitions/A`
resolves and yields no changes against `{"type": "object"}`, while the spelling
`#/$defs/A` — which the in-repo `Resolver` (src/resolver.rs) supports but
`DiffWalker::resolve_ref` never consults — is left unresolved, making the node
effectively `Any` and producing six `TypeRemove` records. -/
theorem c6_ref_spelling :
    walk_diff c6RootDefinitions c6RhsRoot 1 = some [] ∧
    walk_diff c6RootDefs c6RhsRoot 1 = some
      [⟨"", .TypeRemove .String⟩, ⟨"", .TypeRemove .Number⟩,
       ⟨"", .TypeRemove .Integer⟩, ⟨"", .TypeRemove .Array⟩,
       ⟨"", .TypeRemove .Boolean⟩, ⟨"", .TypeRemove .Null⟩] := by
  have hTake : "#/definitions/A".take 14 = "#/definitions/" := by decide
  have hDrop : "#/definitions/A".drop 14 = "A" := by decide
  have hTake2 : "#/$defs/A".take 14 = "#/$defs/A" := by decide
  constructor <;>
    simp [walk_diff, do_diff, c6RootDefinitions, c6RootDefs, c6RhsRoot, exObjectNode,
      hTake, hDrop, hTake2,
      resolve_references, resolve_ref, mapGet, Schema.into_object, split_types,
      SchemaObject.effective_type, SchemaObject.subschemasV, SchemaObject.subschemas,
      defaultSubschemaValidation, SubschemaValidation.any_of, SchemaObject.reference,
      SchemaObject.instance_type, SchemaObject.const_value, SchemaObject.object,
      SchemaObject.array, SchemaObject.number, SchemaObject.string, jstOfInstanceType,
      diff_any_of, diff_instance_types, InternalJsonSchemaType.into_set,
      InternalJsonSchemaType.explode, explodeSimple, sevenKinds, List.insertionSort,
      List.orderedInsert, jstLe, jstIdx, diff_const, normalize_const, diff_properties,
      btreeSetOfKeys, diff_properties_loop, sortStrings, SchemaObject.objectV,
      defaultObjectValidation, ObjectValidation.properties, ObjectValidation.required,
      ObjectValidation.additional_properties, diff_range,
      SchemaObject.number_validation, SchemaObject.numberV, range_case,
      diff_additional_properties, diff_array_items, SchemaObject.arrayV,
      defaultArrayValidation, ArrayValidation.items, diff_required]

/-- Claim C7: an unresolvable `$ref` leaves its node unchanged (the walker then
continues with the `$ref`-bearing node as-is), and a diff of two parsed roots
never returns an error. -/
theorem c7_unresolved_ref (lhs_root rhs_root : RootSchema) (lhs rhs : SchemaObject) :
    (∀ r, lhs.reference = some r → resolve_ref lhs_root r = none →
      (resolve_references lhs_root rhs_root lhs rhs).1 = lhs) ∧
    (∀ r, rhs.reference = some r → resolve_ref rhs_root r = none →
      (resolve_references lhs_root rhs_root lhs rhs).2 = rhs) ∧
    (∀ fuel, exceptIsOk (lib_diff (.ok lhs_root) (.ok rhs_root) fuel) = true) := by
  refine ⟨?_, ?_, fun fuel => rfl⟩
  · intro r hr hres
    simp [resolve_references, hr, hres]
  · intro r hr hres
    simp [resolve_references, hr, hres]

theorem c7_unresolved_ref_witness :
    (resolve_references emptyRoot emptyRoot c7Lhs defaultSchemaObject).1 = c7Lhs :=
  (c7_unresolved_ref emptyRoot emptyRoot c7Lhs defaultSchemaObject).1
    ("#/definitions/Missing") rfl rfl

/-- Claim C8: `diff` returns an error exactly when one of the two parse results is
an error (the left one is checked first), and once both inputs parse it returns
`Ok` with the walker's changes. -/
theorem c8_error_boundary (lv rv : Except Error RootSchema) (fuel : ℕ) :
    exceptIsOk (lib_diff lv rv fuel) = (exceptIsOk lv && exceptIsOk rv) ∧
    (∀ S T : RootSchema, lv = .ok S → rv = .ok T →
      lib_diff lv rv fuel = .ok (walk_diff S T fuel)) := by
  constructor
  · cases lv <;> cases rv <;> rfl
  · rintro S T rfl rfl
    rfl

theorem c8_error_boundary_witness :
    lib_diff (.ok exStringRoot) (.ok exStringRoot) 1 =
      .ok (walk_diff exStringRoot exStringRoot 1) :=
  (c8_error_boundary (.ok exStringRoot) (.ok exStringRoot) 1).2
    exStringRoot exStringRoot rfl rfl

/-- Claim C9 (corrected): const normalization replaces a node whose const is a
JSON object by a node carrying only the derived `properties` (each key mapped to
the recursively normalized node of its value), replaces a node whose const is a
primitive by a node carrying only that const, and leaves a node without const
unchanged; in the two rewriting cases the node's other attributes are discarded,
not preserved. -/
theorem c9_const_normalization (s : SchemaObject) :
    (s.const_value = none → normalize_const s = s) ∧
    (∀ m, s.const_value = some (.obj m) →
      normalize_const s = const_object_node (normalize_entries m)) ∧
    (∀ v, s.const_value = some v → v.is_object = false →
      normalize_const s = const_primitive_node v) := by
  refine ⟨?_, ?_, ?_⟩
  · intro h
    simp [normalize_const, h]
  · intro m h
    simp [normalize_const, h, do_normalize, const_object_node]
  · intro v h hv
    cases v <;> simp_all [JsonValue.is_object, normalize_const, do_normalize,
      const_primitive_node]

theorem c9_const_normalization_witness :
    normalize_const c9ObjNode = const_object_node (normalize_entries [("a", .num 1)]) :=
  (c9_const_normalization c9ObjNode).2.1 [("a", .num 1)] rfl

/-- Claim C9 counterexample: the node `{"type": "string", "const": "hello"}` has a
primitive const but is not left as-is — normalization drops its `type`. -/
theorem c9_counterexample : normalize_const c9Node ≠ c9Node := by
  intro h
  have hproj := congrArg SchemaObject.instance_type h
  simp [normalize_const, c9Node, do_normalize, SchemaObject.instance_type,
    SchemaObject.const_value] at hproj

/-- Claim C10: when exactly one side carries an `items` keyword (either form) and
the other has none, the released library's items facet emits no change record and
performs no recursion — the result is `some []` for every recursion callback. -/
theorem c10_mixed_items
    (recur : String → SchemaObject → SchemaObject → Option (List Change))
    (json_path : String) (lhs rhs : SchemaObject)
    (h : (lhs.arrayV.items = none ∧ rhs.arrayV.items ≠ none) ∨
         (lhs.arrayV.items ≠ none ∧ rhs.arrayV.items = none)) :
    diff_array_items recur json_path lhs rhs = some [] := by
  rcases h with ⟨h1, h2⟩ | ⟨h1, h2⟩
  · rcases hr : rhs.arrayV.items with _ | sv
    · exact absurd hr h2
    · cases sv <;> simp [diff_array_items, h1, hr]
  · rcases hl : lhs.arrayV.items with _ | sv
    · exact absurd hl h1
    · cases sv <;> simp [diff_array_items, hl, h2]

theorem c10_mixed_items_witness :
    diff_array_items (fun _ _ _ => none) ("") c10Lhs defaultSchemaObject = some [] :=
  c10_mixed_items (fun _ _ _ => none) ("") c10Lhs defaultSchemaObject
    (Or.inr ⟨by simp [c10Lhs, SchemaObject.arrayV, SchemaObject.array, ArrayValidation.items],
      by simp [defaultSchemaObject, SchemaObject.arrayV, SchemaObject.array,
        defaultArrayValidation, ArrayValidation.items]⟩)
